import Mathlib

/-!
Shallow embedding of the concurrent download engine of the teachable-backup
repository (src/download_teachable_refactor.py and
src/download_teachable_courses.py): the rate-limited API client
(TeachableAPIClient._handle_rate_limit), the resumable transfer protocol
(download_file and DownloadManager._process_download), the download manager
(add_task, _consumer_worker) and its adaptive concurrency controller
(reduce_concurrency_to_one / restore_max_concurrency_if_ready).

Machine integers are modelled as Nat (all quantities involved are byte counts,
status codes, seconds and retry counters, none of which overflow or go
negative in the source).  Network and filesystem effects are modelled by an
explicit event list together with an explicit final filesystem state.
-/

/-! ## Module-level constants (identical in both source files unless noted) -/

/-- Constant API_MAX_CONCURRENT_CALLS = 2. -/
def API_MAX_CONCURRENT_CALLS : Nat := 2

/-- Constant MAX_RETRIES = 5. -/
def MAX_RETRIES : Nat := 5

/-- Constant DELAY_FACTOR = 3. -/
def DELAY_FACTOR : Nat := 3

/-- Constant INITIAL_DELAY = 20. -/
def INITIAL_DELAY : Nat := 20

/-- Constant MAX_CONCURRENT_DOWNLOADS = 3. -/
def MAX_CONCURRENT_DOWNLOADS : Nat := 3

/-- RESUME_SAFETY_MARGIN = 1024 * 1024 (1 MiB, both variants of download_file). -/
def RESUME_SAFETY_MARGIN : Nat := 1024 * 1024

/-- SMALL_FILE_THRESHOLD = 50 * 1024 * 1024 in
download_teachable_refactor.download_file. -/
def SMALL_FILE_THRESHOLD_REFACTOR : Nat := 50 * 1024 * 1024

/-- SMALL_FILE_THRESHOLD = 1024 * 1024 in
download_teachable_courses.download_file. -/
def SMALL_FILE_THRESHOLD_COURSES : Nat := 1024 * 1024

/-! ## Rate-limited API client (TeachableAPIClient._handle_rate_limit)

The retry loop in _handle_rate_limit is identical in both source files
(refactor lines 310-358, courses lines 313-361).  We model the server as a
function from the attempt's retry counter to the response received, and the
client's behaviour as the list of sleeps it performs plus its outcome. -/

/-- Configuration fields of TeachableAPIClient that the retry loop reads:
max_retries, delay_factor and initial_delay (set from the module constants in
TeachableAPIClient.__init__). -/
structure RLClient where
  max_retries : Nat
  delay_factor : Nat
  initial_delay : Nat
deriving DecidableEq

/-- The client built by TeachableAPIClient.__init__ from the module constants. -/
def defaultClient : RLClient :=
  { max_retries := MAX_RETRIES, delay_factor := DELAY_FACTOR, initial_delay := INITIAL_DELAY }

/-- One HTTP response as observed by _handle_rate_limit: its status code and
the value of the RateLimit-Reset header when that header is present. -/
structure RLResponse where
  status : Nat
  rateLimitReset : Option String
deriving DecidableEq

/-- Python str.isdigit as used on the RateLimit-Reset header value: true for a
nonempty string of (ASCII) digits. -/
def pyIsDigit (s : String) : Bool := !s.data.isEmpty && s.data.all Char.isDigit

/-- Base-10 value of a list of digit characters. -/
def digitsVal (l : List Char) : Nat := l.foldl (fun acc c => acc * 10 + (c.toNat - 48)) 0

/-- Python int() applied to a string of digits. -/
def pyInt (s : String) : Nat := digitsVal s.data

/-- The delay chosen for a 429 response at a given retry count
(refactor lines 332-342): the integer value of the RateLimit-Reset header when
reset_time_str.isdigit(), otherwise initial_delay * delay_factor ** retries. -/
def delayFor (c : RLClient) (retries : Nat) (r : RLResponse) : Nat :=
  let resetStr := r.rateLimitReset.getD ""
  if pyIsDigit resetStr then pyInt resetStr
  else c.initial_delay * c.delay_factor ^ retries

/-- The retry loop of _handle_rate_limit (refactor lines 315-358), written with
structural fuel: fuel stands for max_retries - retries, so the loop guard
retries < max_retries becomes fuel = 0.  Each iteration performs one GET; a
429 response causes a sleep of delayFor and another iteration with
retries + 1; any other response is returned; exhausting the retries raises
(Except.error, modelling the final aiohttp.ClientError "Max retries
exceeded").  The first component collects the sleep durations performed. -/
def hrlGo (c : RLClient) (resp : Nat → RLResponse) : Nat → Nat → List Nat × Except Unit RLResponse
  | _, 0 => ([], Except.error ())
  | retries, fuel + 1 =>
    let r := resp retries
    if r.status = 429 then
      let rest := hrlGo c resp (retries + 1) fuel
      (delayFor c retries r :: rest.1, rest.2)
    else ([], Except.ok r)

/-- Entry point of the retry loop: retries starts at 0, so the remaining fuel
is max_retries. -/
def handle_rate_limit (c : RLClient) (resp : Nat → RLResponse) : List Nat × Except Unit RLResponse :=
  hrlGo c resp 0 c.max_retries

/-! ### Semaphore event trace of _handle_rate_limit (for the API-call slot)

The body of each loop iteration runs inside `async with self.api_calls_semaphore`
(refactor line 320).  On a 429 the coroutine sleeps at line 343, still inside
the `async with`, and the `continue` at line 345 then exits the `async with`
block, releasing the slot before the next iteration re-acquires it.  On any
other response the `return` exits the block, releasing the slot. -/

/-- Events of one _handle_rate_limit call relevant to the API-call semaphore. -/
inductive APIEvent where
  | acquire : APIEvent
  | request (status : Nat) : APIEvent
  | sleep (d : Nat) : APIEvent
  | release : APIEvent
deriving DecidableEq

/-- The semaphore event trace of the retry loop, with the same fuel convention
as hrlGo. -/
def hrlTraceGo (c : RLClient) (resp : Nat → RLResponse) : Nat → Nat → List APIEvent
  | _, 0 => []
  | retries, fuel + 1 =>
    let r := resp retries
    if r.status = 429 then
      APIEvent.acquire :: APIEvent.request r.status ::
        APIEvent.sleep (delayFor c retries r) :: APIEvent.release ::
        hrlTraceGo c resp (retries + 1) fuel
    else [APIEvent.acquire, APIEvent.request r.status, APIEvent.release]

/-- The semaphore event trace of one full _handle_rate_limit call. -/
def apiCallTrace (c : RLClient) (resp : Nat → RLResponse) : List APIEvent :=
  hrlTraceGo c resp 0 c.max_retries

/-- Scans a trace with the number of semaphore slots currently held by this
coroutine and checks that every sleep event happens while at least one slot is
held. -/
def sleepsHeld : List APIEvent → Nat → Bool
  | [], _ => true
  | APIEvent.acquire :: t, d => sleepsHeld t (d + 1)
  | APIEvent.release :: t, d => sleepsHeld t (d - 1)
  | APIEvent.sleep _ :: t, d => decide (1 ≤ d) && sleepsHeld t d
  | APIEvent.request _ :: t, d => sleepsHeld t d

/-- Checks that every sleep event is immediately followed by a release of the
semaphore slot. -/
def sleepThenRelease : List APIEvent → Bool
  | [] => true
  | [APIEvent.sleep _] => false
  | APIEvent.sleep _ :: e :: t => (e == APIEvent.release) && sleepThenRelease (e :: t)
  | _ :: t => sleepThenRelease t

/-! ## Resumable transfer protocol (download_file)

Both variants download one URL to one destination path, using the staging path
destinationPath + ".partial".  We model one call of download_file as a pure
function of:
  * the url (only its emptiness matters),
  * the verify flag,
  * the remote server's behaviour for this call (Remote), and
  * the local filesystem state at the two paths (Fs),
returning the boolean result, the filesystem state afterwards, and the list of
network/filesystem events performed.  In identifiers, "staging" stands for the
".partial" staging path and "final" for the destination path, and the Bool
field onFinal of an event is true when the event targets the destination path
and false when it targets the staging path. -/

/-- Remote server behaviour for one download_file call: whether the HEAD
response carries an Accept-Ranges header, the HEAD response's Content-Length
header (the code reads int(headers.get("Content-Length", 0))), the HEAD and
GET status codes, the GET reason phrase, the number of body bytes the GET
actually delivers before the stream ends, and whether an
asyncio.CancelledError interrupts the chunk loop. -/
structure Remote where
  acceptRanges : Bool
  contentLengthHdr : Option Nat
  headStatus : Nat
  getStatus : Nat
  reason : String
  delivered : Nat
  interrupted : Bool

/-- file_size as computed from the HEAD response:
int(head_response.headers.get("Content-Length", 0)). -/
def Remote.contentLength (r : Remote) : Nat := r.contentLengthHdr.getD 0

/-- Local filesystem state at the two paths: the size of the file at the final
destination path and at the staging (".partial") path, none when absent. -/
structure Fs where
  finalSize : Option Nat
  stagingSize : Option Nat
deriving DecidableEq

/-- Network/filesystem events of one download_file call.  openW records an
open for writing ("ab" when append is true, "wb" otherwise), writeChunk the
total bytes streamed into the opened file, writeText the file_path.write_text
call of the refactor's 403 handler, truncate the f.truncate(start_pos) call,
unlink a deletion, and rename the staging-to-final promotion. -/
inductive Ev where
  | headReq : Ev
  | getReq (rangeStart status : Nat) : Ev
  | openW (onFinal append : Bool) : Ev
  | writeChunk (onFinal : Bool) (bytes : Nat) : Ev
  | writeText (onFinal : Bool) : Ev
  | truncate (onFinal : Bool) (size : Nat) : Ev
  | unlink (onFinal : Bool) : Ev
  | rename : Ev
deriving DecidableEq

/-- Result of one download_file call: the returned boolean, the filesystem
afterwards, and the events performed in order. -/
structure DLRun where
  ok : Bool
  fs : Fs
  events : List Ev
deriving DecidableEq

/-- The error text written to the destination path by the refactor's 403
handler: f-string "Cannot fetch file: {response.status} {response.reason}". -/
def errText (r : Remote) : String :=
  "Cannot fetch file: " ++ toString r.getStatus ++ " " ++ r.reason

/-- Total body bytes written to disk during a run (the data actually
transferred). -/
def dataBytes : List Ev → Nat
  | [] => 0
  | Ev.writeChunk _ n :: evs => n + dataBytes evs
  | _ :: evs => dataBytes evs

/-- Number of GET data requests issued during a run. -/
def countGet : List Ev → Nat
  | [] => 0
  | Ev.getReq _ _ :: evs => 1 + countGet evs
  | _ :: evs => countGet evs

/-! ### download_file, refactor variant (download_teachable_refactor.py 542-784) -/

/-- Streaming phase of the refactor's download_file (lines 642-690 resumed,
714-762 fresh): open the staging file ("ab" when start_pos > 0, else "wb"),
stream the delivered bytes into it; an asyncio.CancelledError inside the chunk
loop returns False (line 662-664); otherwise the staging file's size is
compared with file_size: a mismatch returns False (lines 743-749), a match
renames the staging file onto the destination and returns True (line 752). -/
def refactorStream (startPos fsize : Nat) (r : Remote) (fs : Fs) : DLRun :=
  let written := startPos + r.delivered
  let fs1 : Fs := { fs with stagingSize := some written }
  let evs : List Ev := [Ev.openW false (decide (startPos > 0)), Ev.writeChunk false r.delivered]
  if r.interrupted then ⟨false, fs1, evs⟩
  else if written ≠ fsize then ⟨false, fs1, evs⟩
  else ⟨true, { finalSize := some written, stagingSize := none }, evs ++ [Ev.rename]⟩

/-- A GET data request of the refactor's download_file, from byte offset
startPos (lines 625-640 resumed, 696-712 fresh).  A status of 403 writes the
error text to the DESTINATION path via file_path.write_text (lines 709-711)
and returns False; any other status >= 400 returns False; otherwise the
streaming phase runs. -/
def refactorGet (startPos fsize : Nat) (r : Remote) (fs : Fs) : DLRun :=
  if r.getStatus ≥ 400 then
    if r.getStatus = 403 then
      ⟨false, { fs with finalSize := some (errText r).length },
        [Ev.getReq startPos r.getStatus, Ev.writeText true]⟩
    else ⟨false, fs, [Ev.getReq startPos r.getStatus]⟩
  else
    let st := refactorStream startPos fsize r fs
    { st with events := Ev.getReq startPos r.getStatus :: st.events }

/-- Handling of an existing staging file in the refactor's download_file
(lines 606-694), reached when the destination-file checks did not return.
A staging file whose size equals file_size is renamed onto the destination
(lines 609-616).  Otherwise, when partial_size > RESUME_SAFETY_MARGIN and
file_size > SMALL_FILE_THRESHOLD, the staging file is truncated to
start_pos = partial_size - RESUME_SAFETY_MARGIN and a ranged GET from
start_pos runs (lines 617-690); note the code never consults supports_resume
here.  In every other case the staging file is unlinked (line 693) and a
fresh GET from byte 0 runs.  With no staging file, a fresh GET from byte 0
runs directly. -/
def refactorStaging (fsize : Nat) (r : Remote) (fs : Fs) : DLRun :=
  match fs.stagingSize with
  | some s =>
    if s = fsize then ⟨true, { finalSize := some s, stagingSize := none }, [Ev.rename]⟩
    else if s > RESUME_SAFETY_MARGIN ∧ fsize > SMALL_FILE_THRESHOLD_REFACTOR then
      let startPos := s - RESUME_SAFETY_MARGIN
      let rg := refactorGet startPos fsize r { fs with stagingSize := some startPos }
      { rg with events := Ev.truncate false startPos :: rg.events }
    else
      let rg := refactorGet 0 fsize r { fs with stagingSize := none }
      { rg with events := Ev.unlink false :: rg.events }
  | none => refactorGet 0 fsize r fs

/-- The HEAD block of the refactor's download_file (lines 583-694): file_size
is read from the HEAD response; an existing destination file whose size equals
file_size is accepted (unlinking any staging file) and True returned (lines
592-598); a size mismatch under verify returns False (lines 599-604);
otherwise the staging-file handling runs. -/
def refactorHeadChecks (verify : Bool) (r : Remote) (fs : Fs) : DLRun :=
  match fs.finalSize with
  | some n =>
    if n = r.contentLength then
      ⟨true, { fs with stagingSize := none },
        if fs.stagingSize.isSome then [Ev.unlink false] else []⟩
    else if verify then ⟨false, fs, []⟩
    else refactorStaging r.contentLength r fs
  | none => refactorStaging r.contentLength r fs

/-- The HEAD block of the refactor's download_file with the headReq event
recorded in front of the checks it guards. -/
def refactorAfterHead (verify : Bool) (r : Remote) (fs : Fs) : DLRun :=
  let inner := refactorHeadChecks verify r fs
  { inner with events := Ev.headReq :: inner.events }

/-- download_teachable_refactor.download_file.  An empty url returns False
(lines 561-563).  An existing destination file with verify off returns True
immediately (lines 574-576).  The HEAD request and all checks on existing
files run only when verify is set or a staging file exists (line 583);
otherwise the fresh GET runs with file_size still 0 (its initialisation at
line 570). -/
def download_file_refactor (url : String) (verify : Bool) (r : Remote) (fs : Fs) : DLRun :=
  if url = "" then ⟨false, fs, []⟩
  else if fs.finalSize.isSome && !verify then ⟨true, fs, []⟩
  else if verify || fs.stagingSize.isSome then refactorAfterHead verify r fs
  else refactorGet 0 0 r fs

/-- DownloadManager._process_download of the refactor (lines 960-968) calls
download_file with verify left at its default False. -/
def process_download_refactor (url : String) (r : Remote) (fs : Fs) : DLRun :=
  download_file_refactor url false r fs

/-! ### download_file, courses variant (download_teachable_courses.py 578-744) -/

/-- The GET data request of the courses variant (lines 650-736), always from
byte 0 (start_pos is never changed from 0 in this variant).  A 403 or any
status >= 400 unlinks an existing destination file and returns False (lines
653-678).  Otherwise output_path is the DESTINATION path itself when
file_size < SMALL_FILE_THRESHOLD and the staging path otherwise (line 681);
the file is opened "wb" and the delivered bytes streamed in.  Only when
file_size >= SMALL_FILE_THRESHOLD is the staging file's size verified against
file_size — a mismatch returns False, a match unlinks an existing destination
file and renames the staging file onto it (lines 712-725).  Small files are
reported successful with no verification. -/
def coursesGet (r : Remote) (fs : Fs) (fsize : Nat) : DLRun :=
  if r.getStatus = 403 ∨ r.getStatus ≥ 400 then
    ⟨false, { fs with finalSize := none },
      Ev.getReq 0 r.getStatus :: (if fs.finalSize.isSome then [Ev.unlink true] else [])⟩
  else if fsize < SMALL_FILE_THRESHOLD_COURSES then
    ⟨true, { fs with finalSize := some r.delivered },
      [Ev.getReq 0 r.getStatus, Ev.openW true false, Ev.writeChunk true r.delivered]⟩
  else
    let fs1 : Fs := { fs with stagingSize := some r.delivered }
    let evs : List Ev := [Ev.getReq 0 r.getStatus, Ev.openW false false, Ev.writeChunk false r.delivered]
    if r.delivered ≠ fsize then ⟨false, fs1, evs⟩
    else ⟨true, { finalSize := some r.delivered, stagingSize := none },
          evs ++ (if fs.finalSize.isSome then [Ev.unlink true] else []) ++ [Ev.rename]⟩

/-- The courses variant after a successful HEAD (lines 629-648): for
file_size < SMALL_FILE_THRESHOLD any staging file is unlinked, and an existing
destination file with verify off is either accepted when its size equals
file_size (return True) or unlinked for re-download; then the GET runs. -/
def coursesAfterHead (verify : Bool) (r : Remote) (fs : Fs) : DLRun :=
  let fsize := r.contentLength
  if fsize < SMALL_FILE_THRESHOLD_COURSES then
    let evs1 : List Ev := if fs.stagingSize.isSome then [Ev.unlink false] else []
    let fs1 : Fs := { fs with stagingSize := none }
    match fs.finalSize with
    | some n =>
      if !verify then
        if n = fsize then ⟨true, fs1, evs1⟩
        else
          let rg := coursesGet r { fs1 with finalSize := none } fsize
          { rg with events := evs1 ++ [Ev.unlink true] ++ rg.events }
      else
        let rg := coursesGet r fs1 fsize
        { rg with events := evs1 ++ rg.events }
    | none =>
      let rg := coursesGet r fs1 fsize
      { rg with events := evs1 ++ rg.events }
  else coursesGet r fs fsize

/-- download_teachable_courses.download_file.  An empty url returns False
(lines 597-599).  The HEAD request always runs (line 614); a HEAD status of
403 unlinks an existing destination file and returns False (lines 615-627);
otherwise file_size is read from the HEAD response and the rest runs. -/
def download_file_courses (url : String) (verify : Bool) (r : Remote) (fs : Fs) : DLRun :=
  if url = "" then ⟨false, fs, []⟩
  else if r.headStatus = 403 then
    ⟨false, { fs with finalSize := none },
      Ev.headReq :: (if fs.finalSize.isSome then [Ev.unlink true] else [])⟩
  else
    let run := coursesAfterHead verify r fs
    { run with events := Ev.headReq :: run.events }

/-! ### DownloadManager._process_download, courses variant (lines 988-1065) -/

/-- Python set.add on a list model: inserts when absent. -/
def pyAdd (t : Nat) (l : List Nat) : List Nat := if t ∈ l then l else t :: l

/-- Result of one _process_download call: the boolean result, the filesystem
afterwards, the events, and the manager's completed/failed sets and failures
ledger afterwards. -/
structure PDRun where
  ok : Bool
  fs : Fs
  events : List Ev
  completed : List Nat
  failed : List Nat
  failures : List Nat
deriving DecidableEq

/-- DownloadManager._process_download of the courses variant.  Its own HEAD
request overwrites task.file_size with the Content-Length header when that
header is present (lines 993-997).  When the destination file exists and
task.file_size is truthy (non-None and nonzero) and the on-disk size equals
it, the download is skipped: the id is added to completed_downloads and True
returned with no data request (lines 1000-1005).  Otherwise download_file
runs with verify=True; success adds the id to completed_downloads, failure
adds it to failed_downloads and appends a DownloadFailure record to the
failures ledger (lines 1011-1043). -/
def process_download_courses (completed failed failures : List Nat) (taskId : Nat)
    (taskSize0 : Option Nat) (url : String) (r : Remote) (fs : Fs) : PDRun :=
  let taskSize : Option Nat :=
    match r.contentLengthHdr with
    | some v => some v
    | none => taskSize0
  let skip : Bool :=
    match fs.finalSize, taskSize with
    | some diskSize, some k => decide (k ≠ 0) && decide (diskSize = k)
    | _, _ => false
  if skip then
    ⟨true, fs, [Ev.headReq], pyAdd taskId completed, failed, failures⟩
  else
    let run := download_file_courses url true r fs
    if run.ok then
      ⟨true, run.fs, Ev.headReq :: run.events, pyAdd taskId completed, failed, failures⟩
    else
      ⟨false, run.fs, Ev.headReq :: run.events, completed, pyAdd taskId failed, failures ++ [taskId]⟩

/-! ## Download manager: add_task (refactor lines 866-872, courses lines 843-849) -/

/-- The mutable state of a DownloadManager visible to add_task: the _stop and
_started flags, the FIFO task queue (as the list of attachment ids), the keys
of the active_downloads map, the completed_downloads and failed_downloads
sets, and the failures ledger (courses variant only; empty in the refactor). -/
structure DMState where
  stopped : Bool
  started : Bool
  queue : List Nat
  activeKeys : List Nat
  completed : List Nat
  failed : List Nat
  failures : List Nat
deriving DecidableEq

/-- DownloadManager.add_task: when _stop is set it returns immediately;
otherwise it ensures the consumers are started (setting _started) and puts
the task on the queue. -/
def add_task (s : DMState) (t : Nat) : DMState :=
  if s.stopped then s
  else { s with started := true, queue := s.queue ++ [t] }

/-! ## Download manager: the consumer workers (_consumer_worker)

We model the cooperative interleaving of the consumer workers as a transition
system.  A worker is idle or transferring an attachment id.  One transition
covers the synchronous stretch of _consumer_worker from queue.get() up to the
await of the created download task (refactor lines 886-904, courses lines
882-903): dequeue the task, skip it when its id is in failed_downloads (the
ONLY set consulted, refactor lines 891-895), otherwise store the created task
in active_downloads under the id (overwriting any entry already there) and
start transferring.  Separate transitions finish a transfer with success or
failure, updating completed_downloads / failed_downloads and popping the id
from active_downloads (refactor lines 903-941). -/

/-- Status of one consumer worker. -/
inductive WStatus where
  | idle : WStatus
  | transferring (id : Nat) : WStatus
deriving DecidableEq

/-- Manager state shared by the consumer workers. -/
structure MState where
  queue : List Nat
  failed : List Nat
  completed : List Nat
  activeKeys : List Nat
  workers : List WStatus
deriving DecidableEq

/-- Number of workers currently transferring the given attachment id. -/
def countT (id : Nat) : List WStatus → Nat
  | [] => 0
  | WStatus.transferring j :: ws => (if j = id then 1 else 0) + countT id ws
  | WStatus.idle :: ws => countT id ws

/-- One scheduler step of the consumer-worker system. -/
inductive MStep : MState → MState → Prop where
  | skipFailed (s : MState) (w t : Nat) (rest : List Nat) :
      s.workers[w]? = some WStatus.idle → s.queue = t :: rest → t ∈ s.failed →
      MStep s { s with queue := rest }
  | start (s : MState) (w t : Nat) (rest : List Nat) :
      s.workers[w]? = some WStatus.idle → s.queue = t :: rest → t ∉ s.failed →
      MStep s { s with queue := rest,
                       activeKeys := pyAdd t s.activeKeys,
                       workers := s.workers.set w (WStatus.transferring t) }
  | finishOk (s : MState) (w t : Nat) :
      s.workers[w]? = some (WStatus.transferring t) →
      MStep s { s with completed := pyAdd t s.completed,
                       activeKeys := s.activeKeys.erase t,
                       workers := s.workers.set w WStatus.idle }
  | finishFail (s : MState) (w t : Nat) :
      s.workers[w]? = some (WStatus.transferring t) →
      MStep s { s with failed := pyAdd t s.failed,
                       activeKeys := s.activeKeys.erase t,
                       workers := s.workers.set w WStatus.idle }

/-- Reachability under the scheduler steps. -/
inductive Reach : MState → MState → Prop where
  | refl (s : MState) : Reach s s
  | tail (s t u : MState) : Reach s t → MStep t u → Reach s u

/-! ## Adaptive concurrency controller (courses DownloadManager, lines 858-875
and 903-923) -/

/-- The controller state inside the courses DownloadManager:
current_concurrent and consecutive_successes. -/
structure CtrlState where
  current_concurrent : Nat
  consecutive_successes : Nat
deriving DecidableEq

/-- Outcome of one transfer as seen by _consumer_worker: the download task
returned True, returned False, or raised asyncio.CancelledError. -/
inductive DLOutcome where
  | success : DLOutcome
  | failure : DLOutcome
  | cancelled : DLOutcome
deriving DecidableEq

/-- DownloadManager.reduce_concurrency_to_one (lines 858-866): sets
current_concurrent to 1 and consecutive_successes to 0. -/
def reduce_concurrency_to_one (_s : CtrlState) : CtrlState :=
  { current_concurrent := 1, consecutive_successes := 0 }

/-- DownloadManager.restore_max_concurrency_if_ready (lines 868-875): when
current_concurrent < max_concurrent and consecutive_successes >= 2, restores
current_concurrent to max_concurrent.  The counter is NOT touched. -/
def restore_max_concurrency_if_ready (maxc : Nat) (s : CtrlState) : CtrlState :=
  if s.current_concurrent < maxc ∧ s.consecutive_successes ≥ 2 then
    { s with current_concurrent := maxc }
  else s

/-- Effect of one transfer outcome on the controller state, as performed by
_consumer_worker (lines 903-923): success increments consecutive_successes and
calls restore_max_concurrency_if_ready; CancelledError calls
reduce_concurrency_to_one; an ordinary failure changes nothing. -/
def consumerOutcomeStep (maxc : Nat) (s : CtrlState) : DLOutcome → CtrlState
  | DLOutcome.success =>
      restore_max_concurrency_if_ready maxc
        { s with consecutive_successes := s.consecutive_successes + 1 }
  | DLOutcome.cancelled => reduce_concurrency_to_one s
  | DLOutcome.failure => s

/-- Server behaviour used as a concrete input for the rate-limit theorems:
the first attempt receives a 429 carrying RateLimit-Reset "5", the retry
succeeds with a 200. -/
def respReset5 : Nat → RLResponse :=
  fun n => if n = 0 then ⟨429, some "5"⟩ else ⟨200, none⟩

/-- Server behaviour where every attempt receives a 429 with no reset header. -/
def respAll429 : Nat → RLResponse := fun _ => ⟨429, none⟩

/-- Occurrence count of an id in a queue (the id may be enqueued repeatedly). -/
def countQ (id : Nat) : List Nat → Nat
  | [] => 0
  | t :: rest => (if t = id then 1 else 0) + countQ id rest

/-- The per-id budget invariant: each attachment id has at most one occurrence
counted over the queue and the transfers in flight. -/
def InvOne (s : MState) : Prop := ∀ id, countQ id s.queue + countT id s.workers ≤ 1

/-- Initial manager state for the C2 counterexample: attachment id 5 enqueued
twice, two idle workers, nothing failed or completed. -/
def c2s0 : MState := ⟨[5, 5], [], [], [], [WStatus.idle, WStatus.idle]⟩

/-- Intermediate state: worker 0 is transferring id 5. -/
def c2s1 : MState := ⟨[5], [], [], [5], [WStatus.transferring 5, WStatus.idle]⟩

/-- Final state: BOTH workers are transferring id 5 simultaneously. -/
def c2s2 : MState := ⟨[], [], [], [5], [WStatus.transferring 5, WStatus.transferring 5]⟩

/-- Initial state for the C8 counterexample: id 7 is already in
completed_downloads, is enqueued again, and is not in failed_downloads. -/
def c8s0 : MState := ⟨[7], [], [7], [], [WStatus.idle]⟩

/-- State reached after the single worker dequeues the task: it is
transferring id 7 although 7 is in the completed set. -/
def c8s1 : MState := ⟨[], [], [7], [7], [WStatus.transferring 7]⟩

/-- Staging-discipline predicate for one refactor download_file run: every
file opened for streaming and every streamed byte targets the staging
(".partial") path; the destination path receives text only through the 403
error handler; a rename only happens on a successful run; and the destination
file changes only by a rename of the verified staging file or by the 403
error text. -/
def StagingOnly (r : Remote) (fs0 : Fs) (run : DLRun) : Prop :=
  (∀ b ap, Ev.openW b ap ∈ run.events → b = false)
  ∧ (∀ b n, Ev.writeChunk b n ∈ run.events → b = false)
  ∧ (∀ b, Ev.writeText b ∈ run.events → r.getStatus = 403)
  ∧ (Ev.rename ∈ run.events → run.ok = true)
  ∧ (run.fs.finalSize ≠ fs0.finalSize →
      Ev.rename ∈ run.events ∨ Ev.writeText true ∈ run.events)

/-- Size-verification discipline of a download run that streamed data: the
run succeeds exactly when the staging file was renamed onto the destination,
and a failed streamed run leaves the staging file in place. -/
def VerifiedStream (run : DLRun) : Prop :=
  (∃ b n, Ev.writeChunk b n ∈ run.events) →
    ((run.ok = true ↔ Ev.rename ∈ run.events)
     ∧ (run.ok = false → run.fs.stagingSize.isSome = true))

/-! ## Auxiliary lemmas on the rate-limit retry loop -/

/-- When every attempt receives a 429, the loop ends by raising (it never
returns a response). -/
lemma hrlGo_error_of_all429 (c : RLClient) (resp : Nat → RLResponse)
    (h : ∀ j, (resp j).status = 429) :
    ∀ (fuel k : Nat), (hrlGo c resp k fuel).2 = Except.error () := by
  intro fuel
  induction fuel with
  | zero => intro k; rfl
  | succ n ih =>
    intro k
    simp only [hrlGo, h k, if_pos rfl]
    exact ih (k + 1)

/-- The loop performs at most as many sleeps as it has fuel (retries are
bounded by max_retries). -/
lemma hrlGo_length_le (c : RLClient) (resp : Nat → RLResponse) :
    ∀ (fuel k : Nat), (hrlGo c resp k fuel).1.length ≤ fuel := by
  intro fuel
  induction fuel with
  | zero => intro k; simp [hrlGo]
  | succ n ih =>
    intro k
    by_cases h : (resp k).status = 429
    · simp only [hrlGo, h, if_pos rfl, List.length_cons]
      exact Nat.succ_le_succ (ih (k + 1))
    · simp [hrlGo, h]

/-- Claim C5: on an HTTP 429 response the client sleeps exactly the numeric
value of the RateLimit-Reset header when that header is present and numeric,
and otherwise sleeps initial_delay * delay_factor ^ retry_count; it retries
at most max_retries times, and when every attempt is rate-limited it raises
the rate-limit-exceeded error instead of returning a response. -/
theorem C5_rate_limit_backoff (c : RLClient) (resp : Nat → RLResponse) (k fuel : Nat) :
    ((resp k).status = 429 → pyIsDigit ((resp k).rateLimitReset.getD "") = true →
      (hrlGo c resp k (fuel + 1)).1.head? =
        some (pyInt ((resp k).rateLimitReset.getD "")))
    ∧ ((resp k).status = 429 → pyIsDigit ((resp k).rateLimitReset.getD "") = false →
      (hrlGo c resp k (fuel + 1)).1.head? = some (c.initial_delay * c.delay_factor ^ k))
    ∧ ((∀ j, (resp j).status = 429) → (handle_rate_limit c resp).2 = Except.error ())
    ∧ (handle_rate_limit c resp).1.length ≤ c.max_retries := by
  refine ⟨?_, ?_, ?_, ?_⟩
  · intro h429 hdig
    simp [hrlGo, h429, delayFor, hdig]
  · intro h429 hdig
    simp [hrlGo, h429, delayFor, hdig]
  · intro hall
    exact hrlGo_error_of_all429 c resp hall c.max_retries 0
  · exact hrlGo_length_le c resp c.max_retries 0

/-- Witness for C5: with the default client, a 429 carrying reset value "5"
makes the first sleep exactly 5 seconds (hence a wait of at least 5 seconds),
and a server that always answers 429 makes the client raise. -/
theorem C5_witness :
    (hrlGo defaultClient respReset5 0 (4 + 1)).1.head? = some 5 ∧ (5 : Nat) ≥ 5
    ∧ (handle_rate_limit defaultClient respAll429).2 = Except.error () := by
  refine ⟨?_, le_refl 5, ?_⟩
  · have h := (C5_rate_limit_backoff defaultClient respReset5 0 4).1 (by decide) (by decide)
    rw [(by decide : pyInt ((respReset5 0).rateLimitReset.getD "") = 5)] at h
    exact h
  · exact (C5_rate_limit_backoff defaultClient respAll429 0 0).2.2.1 (fun j => rfl)

/-! ## C10: the 429 backoff sleep and the API-call semaphore slot -/

/-- Every sleep of the retry loop happens while the semaphore slot is held:
the sleep at refactor line 343 is inside the `async with self.api_calls_semaphore`
block opened at line 320. -/
lemma sleepsHeld_hrlTraceGo (c : RLClient) (resp : Nat → RLResponse) :
    ∀ (fuel k d : Nat), sleepsHeld (hrlTraceGo c resp k fuel) d = true := by
  intro fuel
  induction fuel with
  | zero => intro k d; rfl
  | succ n ih =>
    intro k d
    by_cases h : (resp k).status = 429
    · simp only [hrlTraceGo, h, if_pos rfl, sleepsHeld]
      simpa using ih (k + 1) d
    · simp [hrlTraceGo, h, sleepsHeld]

/-- Every sleep of the retry loop is immediately followed by a release of the
semaphore slot: the `continue` at refactor line 345 exits the `async with`
block right after the sleep, before the retry attempt re-acquires a slot. -/
lemma sleepThenRelease_hrlTraceGo (c : RLClient) (resp : Nat → RLResponse) :
    ∀ (fuel k : Nat), sleepThenRelease (hrlTraceGo c resp k fuel) = true := by
  intro fuel
  induction fuel with
  | zero => intro k; rfl
  | succ n ih =>
    intro k
    by_cases h : (resp k).status = 429
    · cases hn : n with
      | zero => simp [hrlTraceGo, h, sleepThenRelease]
      | succ m =>
        have := ih (k + 1)
        rw [hn] at this
        simp only [hrlTraceGo, h, if_pos rfl] at this ⊢
        by_cases h2 : (resp (k + 1)).status = 429 <;>
          simp_all [sleepThenRelease, hrlTraceGo]
    · simp [hrlTraceGo, h, sleepThenRelease]

/-- Claim C10 (amended): the entire 429 backoff sleep happens while the
API-call semaphore slot acquired for the attempt is still held (so for the
whole sleep at most API_MAX_CONCURRENT_CALLS - 1 other API calls can
proceed), but the slot is released immediately after the sleep — before the
retry attempt — rather than being held until the retry finishes. -/
theorem C10_sleep_holds_slot_amended (c : RLClient) (resp : Nat → RLResponse) :
    sleepsHeld (apiCallTrace c resp) 0 = true
    ∧ sleepThenRelease (apiCallTrace c resp) = true :=
  ⟨sleepsHeld_hrlTraceGo c resp c.max_retries 0 0,
   sleepThenRelease_hrlTraceGo c resp c.max_retries 0⟩

/-- Counterexample for C10 as stated: with the default client and a server
whose first answer is a 429 with reset value "5", the semaphore trace releases
the slot immediately after the sleep (position 3), before the retry request
(position 5) — so a rate-limited request does NOT hold its API-call slot until
its retry attempt finishes. -/
theorem C10_counterexample :
    ¬ (∀ i d, (apiCallTrace defaultClient respReset5)[i]? = some (APIEvent.sleep d) →
        (apiCallTrace defaultClient respReset5)[i + 1]? ≠ some APIEvent.release) := by
  intro h
  exact h 2 5 (by decide) (by decide)

/-! ## C7: the adaptive concurrency controller -/

/-- Claim C7 (amended): a cancellation sets the limit to 1 and the counter to
0; a success increments the counter and, exactly when the limit is below the
configured maximum and the incremented counter has reached 2, restores the
limit to the maximum — WITHOUT resetting the counter; an ordinary failure
changes nothing. -/
theorem C7_adaptive_concurrency_amended (maxc : Nat) (s : CtrlState) :
    consumerOutcomeStep maxc s DLOutcome.cancelled = ⟨1, 0⟩
    ∧ (consumerOutcomeStep maxc s DLOutcome.success).consecutive_successes
        = s.consecutive_successes + 1
    ∧ (s.current_concurrent < maxc → s.consecutive_successes + 1 ≥ 2 →
        (consumerOutcomeStep maxc s DLOutcome.success).current_concurrent = maxc)
    ∧ (¬ (s.current_concurrent < maxc ∧ s.consecutive_successes + 1 ≥ 2) →
        (consumerOutcomeStep maxc s DLOutcome.success).current_concurrent
          = s.current_concurrent)
    ∧ consumerOutcomeStep maxc s DLOutcome.failure = s := by
  refine ⟨rfl, ?_, ?_, ?_, rfl⟩
  · simp only [consumerOutcomeStep, restore_max_concurrency_if_ready]
    split <;> rfl
  · intro h1 h2
    simp [consumerOutcomeStep, restore_max_concurrency_if_ready, h1, h2]
  · intro h
    simp only [consumerOutcomeStep, restore_max_concurrency_if_ready]
    split
    · exact absurd (by assumption) h
    · rfl

/-- Witness for C7 (amended): from limit 1 (after a cancellation) with one
success already counted, a further success restores the limit to the
configured maximum 3. -/
theorem C7_witness :
    (consumerOutcomeStep 3 ⟨1, 1⟩ DLOutcome.success).current_concurrent = 3 :=
  (C7_adaptive_concurrency_amended 3 ⟨1, 1⟩).2.2.1 (by decide) (by decide)

/-- Counterexample for C7 as stated: starting from the post-cancellation state
(limit 1, counter 0), two successes restore the limit to the maximum 3, but
the consecutive-success counter is left at 2 — it is NOT reset when the limit
is restored (restore_max_concurrency_if_ready never touches it). -/
theorem C7_counterexample :
    consumerOutcomeStep 3 (consumerOutcomeStep 3 ⟨1, 0⟩ DLOutcome.success) DLOutcome.success
      = ⟨3, 2⟩
    ∧ (consumerOutcomeStep 3 (consumerOutcomeStep 3 ⟨1, 0⟩ DLOutcome.success)
        DLOutcome.success).consecutive_successes ≠ 0 := by
  constructor <;> decide

/-! ## C9: add_task after stop -/

/-- Claim C9: calling add_task after stop() has been called returns normally
and leaves the manager state completely unchanged — the queue, the active
map, the completed and failed sets and the failures ledger are untouched and
the dropped task is recorded nowhere. -/
theorem C9_add_task_after_stop (s : DMState) (t : Nat) (h : s.stopped = true) :
    add_task s t = s := by
  simp [add_task, h]

/-- Witness for C9: a concrete stopped manager state is unchanged by add_task. -/
theorem C9_witness :
    add_task ⟨true, true, [1], [2], [3], [4], [5]⟩ 99 = ⟨true, true, [1], [2], [3], [4], [5]⟩ :=
  C9_add_task_after_stop ⟨true, true, [1], [2], [3], [4], [5]⟩ 99 rfl

/-! ## C2 / C8: invariants of the consumer-worker transition system -/

/-- Setting an idle worker to transferring t adds one transfer of t. -/
lemma countT_set_transferring (ws : List WStatus) (w t id : Nat)
    (h : ws[w]? = some WStatus.idle) :
    countT id (ws.set w (WStatus.transferring t))
      = countT id ws + (if t = id then 1 else 0) := by
  induction ws generalizing w with
  | nil => simp at h
  | cons a tail ih =>
    cases w with
    | zero =>
      have ha : a = WStatus.idle := by simpa using h
      subst ha
      simp [countT, Nat.add_comm]
    | succ w2 =>
      have h2 : tail[w2]? = some WStatus.idle := by simpa using h
      cases a with
      | idle => simpa [countT] using ih w2 h2
      | transferring j =>
        simp only [List.set, countT, ih w2 h2]
        omega

/-- Setting any worker to idle never increases the number of transfers of an
id. -/
lemma countT_set_idle_le (ws : List WStatus) (w : Nat) (id : Nat) :
    countT id (ws.set w WStatus.idle) ≤ countT id ws := by
  induction ws generalizing w with
  | nil => simp [List.set]
  | cons a tail ih =>
    cases w with
    | zero =>
      cases a with
      | idle => simp [List.set]
      | transferring j => simp only [List.set, countT]; omega
    | succ w2 =>
      cases a with
      | idle => simpa [List.set, countT] using ih w2
      | transferring j => simp only [List.set, countT]; exact Nat.add_le_add_left (ih w2) _

/-- A worker pool of idle workers performs no transfers. -/
lemma countT_eq_zero_of_all_idle (ws : List WStatus) (h : ∀ x ∈ ws, x = WStatus.idle)
    (id : Nat) : countT id ws = 0 := by
  induction ws with
  | nil => rfl
  | cons a tail ih =>
    have ha : a = WStatus.idle := h a (List.mem_cons_self a tail)
    subst ha
    simpa [countT] using ih (fun x hx => h x (List.mem_cons_of_mem _ hx))

/-- Membership in a list is preserved by pyAdd. -/
lemma mem_pyAdd_of_mem {a t : Nat} {l : List Nat} (h : a ∈ l) : a ∈ pyAdd t l := by
  unfold pyAdd
  split
  · exact h
  · exact List.mem_cons_of_mem _ h

/-- One scheduler step preserves the per-id budget invariant. -/
lemma MStep_invOne {s s2 : MState} (hs : InvOne s) (st : MStep s s2) : InvOne s2 := by
  cases st with
  | skipFailed w t rest hw hq hf =>
    intro id
    have h1 := hs id
    rw [hq] at h1
    simp only [countQ] at h1
    show countQ id rest + countT id s.workers ≤ 1
    omega
  | start w t rest hw hq hf =>
    intro id
    have h1 := hs id
    rw [hq] at h1
    simp only [countQ] at h1
    show countQ id rest + countT id (s.workers.set w (WStatus.transferring t)) ≤ 1
    rw [countT_set_transferring s.workers w t id hw]
    omega
  | finishOk w t hw =>
    intro id
    have h1 := hs id
    have h2 := countT_set_idle_le s.workers w id
    show countQ id s.queue + countT id (s.workers.set w WStatus.idle) ≤ 1
    omega
  | finishFail w t hw =>
    intro id
    have h1 := hs id
    have h2 := countT_set_idle_le s.workers w id
    show countQ id s.queue + countT id (s.workers.set w WStatus.idle) ≤ 1
    omega

/-- The per-id budget invariant holds in every reachable state. -/
lemma Reach_invOne {init s : MState} (h0 : InvOne init) (h : Reach init s) : InvOne s := by
  induction h with
  | refl => exact h0
  | tail m u hre hst ih => exact MStep_invOne ih hst

/-- Claim C2 (amended): when every attachment id is enqueued at most once and
all workers start idle, at most one transfer is active per id in every
reachable state.  (When the same id is enqueued more than once this fails —
see the counterexample — because a worker consults only failed_downloads
before starting a transfer and the active_downloads entry is silently
overwritten.) -/
theorem C2_at_most_one_when_unique (init s : MState)
    (hq : ∀ id, countQ id init.queue ≤ 1)
    (hw : ∀ x ∈ init.workers, x = WStatus.idle)
    (h : Reach init s) :
    ∀ id, countT id s.workers ≤ 1 := by
  have h0 : InvOne init := by
    intro id
    have := countT_eq_zero_of_all_idle init.workers hw id
    have := hq id
    omega
  intro id
  have := Reach_invOne h0 h id
  omega

/-- Witness for C2 (amended): a manager with an empty queue and one idle
worker trivially has at most one active transfer per id. -/
theorem C2_witness :
    countT 5 (⟨[], [], [], [], [WStatus.idle]⟩ : MState).workers ≤ 1 :=
  C2_at_most_one_when_unique ⟨[], [], [], [], [WStatus.idle]⟩ _
    (fun id => by simp [countQ])
    (fun x hx => by simpa using hx)
    (Reach.refl _) 5

/-- Counterexample for C2 as stated: when the same attachment id (5) is
enqueued twice, a reachable schedule has two workers simultaneously
transferring id 5 — the active map (which holds a single key 5) does not
prevent the second start, because _consumer_worker consults only
failed_downloads before starting a transfer. -/
theorem C2_counterexample :
    Reach c2s0 c2s2 ∧ countT 5 c2s2.workers = 2 := by
  constructor
  · have h1 : MStep c2s0 c2s1 := by
      have h := MStep.start c2s0 0 5 [5] (by decide) rfl (by decide)
      simpa [c2s0, c2s1, pyAdd] using h
    have h2 : MStep c2s1 c2s2 := by
      have h := MStep.start c2s1 1 5 [] (by decide) rfl (by decide)
      simpa [c2s1, c2s2, pyAdd] using h
    exact Reach.tail _ _ _ (Reach.tail _ _ _ (Reach.refl _) h1) h2
  · decide

/-- Ids in the failed set at the start of a run stay failed and are never
transferred by any worker. -/
lemma failed_frozen {init s : MState}
    (hw : ∀ x ∈ init.workers, x = WStatus.idle)
    (h : Reach init s) :
    (∀ id ∈ init.failed, id ∈ s.failed) ∧ (∀ id ∈ init.failed, countT id s.workers = 0) := by
  induction h with
  | refl =>
    exact ⟨fun id hid => hid, fun id _ => countT_eq_zero_of_all_idle init.workers hw id⟩
  | tail m u hre hst ih =>
    obtain ⟨ihf, ihc⟩ := ih
    cases hst with
    | skipFailed w x rest hwk hq hf => exact ⟨ihf, ihc⟩
    | start w x rest hwk hq hf =>
      refine ⟨ihf, fun id hid => ?_⟩
      have hx : x ≠ id := fun he => hf (he ▸ ihf id hid)
      show countT id (m.workers.set w (WStatus.transferring x)) = 0
      rw [countT_set_transferring m.workers w x id hwk, ihc id hid, if_neg hx]
    | finishOk w x hwk =>
      refine ⟨ihf, fun id hid => ?_⟩
      have := countT_set_idle_le m.workers w id
      have := ihc id hid
      show countT id (m.workers.set w WStatus.idle) = 0
      omega
    | finishFail w x hwk =>
      refine ⟨fun id hid => mem_pyAdd_of_mem (ihf id hid), fun id hid => ?_⟩
      have := countT_set_idle_le m.workers w id
      have := ihc id hid
      show countT id (m.workers.set w WStatus.idle) = 0
      omega

/-- Claim C8 (amended): before running a dequeued task a worker checks ONLY
the failed set — an id that is failed when the run starts is never handed to
the transfer protocol; the completed set is not consulted, so a completed id
that is enqueued again IS transferred again (see the counterexample). -/
theorem C8_failed_skip_amended (init s : MState)
    (hw : ∀ x ∈ init.workers, x = WStatus.idle)
    (h : Reach init s) :
    ∀ id ∈ init.failed, id ∈ s.failed ∧ countT id s.workers = 0 := by
  intro id hid
  exact ⟨(failed_frozen hw h).1 id hid, (failed_frozen hw h).2 id hid⟩

/-- Witness for C8 (amended): with id 3 failed from the start and one idle
worker, id 3 is still failed and not being transferred. -/
theorem C8_witness :
    3 ∈ (⟨[3], [3], [], [], [WStatus.idle]⟩ : MState).failed
    ∧ countT 3 (⟨[3], [3], [], [], [WStatus.idle]⟩ : MState).workers = 0 := by
  have h := C8_failed_skip_amended ⟨[3], [3], [], [], [WStatus.idle]⟩ _
    (fun x hx => by simpa using hx) (Reach.refl _) 3 (by decide)
  exact h

/-- Counterexample for C8 as stated: a task whose id (7) is already in the
completed set is dequeued and handed to the transfer protocol anyway — the
worker's pre-check consults only failed_downloads (refactor lines 891-895),
never completed_downloads. -/
theorem C8_counterexample :
    7 ∈ c8s0.completed ∧ Reach c8s0 c8s1 ∧ countT 7 c8s1.workers = 1 := by
  refine ⟨by decide, ?_, by decide⟩
  have h1 : MStep c8s0 c8s1 := by
    have h := MStep.start c8s0 0 7 [] (by decide) rfl (by decide)
    simpa [c8s0, c8s1, pyAdd] using h
  exact Reach.tail _ _ _ (Reach.refl _) h1

/-! ## C1: staging-path discipline of download_file -/

/-- Prepending an event that is not an open, a streamed write, a write_text
or a rename preserves the staging discipline. -/
lemma StagingOnly_cons {r : Remote} {fs0 : Fs} {run : DLRun} (e : Ev)
    (h1 : ∀ b ap, e ≠ Ev.openW b ap) (h2 : ∀ b n, e ≠ Ev.writeChunk b n)
    (h3 : ∀ b, e ≠ Ev.writeText b) (h4 : e ≠ Ev.rename)
    (h : StagingOnly r fs0 run) :
    StagingOnly r fs0 { run with events := e :: run.events } := by
  obtain ⟨p1, p2, p3, p4, p5⟩ := h
  refine ⟨?_, ?_, ?_, ?_, ?_⟩
  · intro b ap hm
    rcases List.mem_cons.1 hm with hc | hm2
    · exact absurd hc.symm (h1 b ap)
    · exact p1 b ap hm2
  · intro b n hm
    rcases List.mem_cons.1 hm with hc | hm2
    · exact absurd hc.symm (h2 b n)
    · exact p2 b n hm2
  · intro b hm
    rcases List.mem_cons.1 hm with hc | hm2
    · exact absurd hc.symm (h3 b)
    · exact p3 b hm2
  · intro hm
    rcases List.mem_cons.1 hm with hc | hm2
    · exact absurd hc.symm h4
    · exact p4 hm2
  · intro hne
    rcases p5 hne with hr | ht
    · exact Or.inl (List.mem_cons_of_mem e hr)
    · exact Or.inr (List.mem_cons_of_mem e ht)

/-- The staging discipline only mentions the destination file, so it
transports along filesystem states that agree on the destination file. -/
lemma StagingOnly_of_same_final {r : Remote} {fs0 fs1 : Fs} {run : DLRun}
    (hsame : fs1.finalSize = fs0.finalSize) (h : StagingOnly r fs1 run) :
    StagingOnly r fs0 run := by
  obtain ⟨p1, p2, p3, p4, p5⟩ := h
  exact ⟨p1, p2, p3, p4, fun hne => p5 (by rw [hsame]; exact hne)⟩

/-- The streaming phase obeys the staging discipline: it opens and writes
only the staging file and promotes it only after the size check. -/
lemma refactorStream_stagingOnly (sp fsize : Nat) (r : Remote) (fs : Fs) :
    StagingOnly r fs (refactorStream sp fsize r fs) := by
  simp only [refactorStream, StagingOnly]
  split_ifs <;> simp_all

/-- The GET phase obeys the staging discipline; its only write to the
destination path is the 403 error text. -/
lemma refactorGet_stagingOnly (sp fsize : Nat) (r : Remote) (fs : Fs) :
    StagingOnly r fs (refactorGet sp fsize r fs) := by
  by_cases hge : r.getStatus ≥ 400
  · by_cases h403 : r.getStatus = 403
    · simp only [refactorGet, if_pos hge, if_pos h403]
      refine ⟨?_, ?_, ?_, ?_, ?_⟩ <;> simp_all
    · simp only [refactorGet, if_pos hge, if_neg h403]
      refine ⟨?_, ?_, ?_, ?_, ?_⟩ <;> simp_all
  · simp only [refactorGet, if_neg hge]
    exact StagingOnly_cons (Ev.getReq sp r.getStatus) (by simp) (by simp) (by simp) (by simp)
      (refactorStream_stagingOnly sp fsize r fs)

/-- The staging-file handling obeys the staging discipline. -/
lemma refactorStaging_stagingOnly (fsize : Nat) (r : Remote) (fs : Fs) :
    StagingOnly r fs (refactorStaging fsize r fs) := by
  rcases fs with ⟨fin, stag⟩
  cases stag with
  | none => exact refactorGet_stagingOnly 0 fsize r ⟨fin, none⟩
  | some s =>
    by_cases h1 : s = fsize
    · simp only [refactorStaging, if_pos h1]
      refine ⟨?_, ?_, ?_, ?_, ?_⟩ <;> simp_all
    · by_cases h2 : s > RESUME_SAFETY_MARGIN ∧ fsize > SMALL_FILE_THRESHOLD_REFACTOR
      · simp only [refactorStaging, if_neg h1, if_pos h2]
        exact StagingOnly_cons (Ev.truncate false (s - RESUME_SAFETY_MARGIN))
          (by simp) (by simp) (by simp) (by simp)
          (@StagingOnly_of_same_final r ⟨fin, some s⟩ ⟨fin, some (s - RESUME_SAFETY_MARGIN)⟩ _
            rfl
            (refactorGet_stagingOnly (s - RESUME_SAFETY_MARGIN) fsize r
              ⟨fin, some (s - RESUME_SAFETY_MARGIN)⟩))
      · simp only [refactorStaging, if_neg h1, if_neg h2]
        exact StagingOnly_cons (Ev.unlink false) (by simp) (by simp) (by simp) (by simp)
          (@StagingOnly_of_same_final r ⟨fin, some s⟩ ⟨fin, none⟩ _ rfl
            (refactorGet_stagingOnly 0 fsize r ⟨fin, none⟩))

/-- The destination-file checks of the HEAD block obey the staging
discipline. -/
lemma refactorHeadChecks_stagingOnly (verify : Bool) (r : Remote) (fs : Fs) :
    StagingOnly r fs (refactorHeadChecks verify r fs) := by
  rcases fs with ⟨fin, stag⟩
  cases fin with
  | none =>
    simp only [refactorHeadChecks]
    exact refactorStaging_stagingOnly r.contentLength r ⟨none, stag⟩
  | some n =>
    by_cases h1 : n = r.contentLength
    · simp only [refactorHeadChecks, if_pos h1]
      refine ⟨?_, ?_, ?_, ?_, ?_⟩ <;> cases stag <;> simp_all
    · cases verify with
      | true =>
        simp only [refactorHeadChecks, if_neg h1, if_pos rfl]
        refine ⟨?_, ?_, ?_, ?_, ?_⟩ <;> simp_all
      | false =>
        simp only [refactorHeadChecks, if_neg h1]
        simp only [Bool.false_eq_true, if_false]
        exact refactorStaging_stagingOnly r.contentLength r ⟨some n, stag⟩

/-- The HEAD block obeys the staging discipline. -/
lemma refactorAfterHead_stagingOnly (verify : Bool) (r : Remote) (fs : Fs) :
    StagingOnly r fs (refactorAfterHead verify r fs) := by
  simp only [refactorAfterHead]
  exact StagingOnly_cons Ev.headReq (by simp) (by simp) (by simp) (by simp)
    (refactorHeadChecks_stagingOnly verify r fs)

/-- The refactor's download_file obeys the staging discipline on every input. -/
lemma download_file_refactor_stagingOnly (url : String) (verify : Bool) (r : Remote)
    (fs : Fs) :
    StagingOnly r fs (download_file_refactor url verify r fs) := by
  by_cases h1 : url = ""
  · simp only [download_file_refactor, if_pos h1]
    refine ⟨?_, ?_, ?_, ?_, ?_⟩ <;> simp_all
  · by_cases h2 : (fs.finalSize.isSome && !verify) = true
    · simp only [download_file_refactor, if_neg h1, if_pos h2]
      refine ⟨?_, ?_, ?_, ?_, ?_⟩ <;> simp_all
    · by_cases h3 : (verify || fs.stagingSize.isSome) = true
      · simp only [download_file_refactor, if_neg h1, h2, h3, if_true, Bool.false_eq_true,
          if_false]
        exact refactorAfterHead_stagingOnly verify r fs
      · simp only [download_file_refactor, if_neg h1, h2, h3, Bool.false_eq_true, if_false]
        exact refactorGet_stagingOnly 0 0 r fs

/-- In the courses variant, the GET streams into the destination path only
when file_size is below the small-file threshold. -/
lemma coursesGet_writeChunk_final (r : Remote) (fs : Fs) (fsize : Nat) :
    ∀ n, Ev.writeChunk true n ∈ (coursesGet r fs fsize).events →
      fsize < SMALL_FILE_THRESHOLD_COURSES := by
  intro n hm
  by_cases hst : r.getStatus = 403 ∨ r.getStatus ≥ 400
  · simp only [coursesGet, if_pos hst] at hm
    rcases fs.finalSize.isSome with _ | _ <;> simp_all
  · by_cases hsm : fsize < SMALL_FILE_THRESHOLD_COURSES
    · exact hsm
    · exfalso
      simp only [coursesGet, if_neg hst, if_neg hsm] at hm
      by_cases hd : r.delivered ≠ fsize
      · simp [if_pos hd] at hm
      · simp only [if_neg hd] at hm
        rcases fs.finalSize.isSome with _ | _ <;> simp_all

/-- In the courses variant, the small-file pre-pass adds no destination
writes, so destination streaming still implies a small file. -/
lemma coursesAfterHead_writeChunk_final (verify : Bool) (r : Remote) (fs : Fs) :
    ∀ n, Ev.writeChunk true n ∈ (coursesAfterHead verify r fs).events →
      r.contentLength < SMALL_FILE_THRESHOLD_COURSES := by
  intro n hm
  by_cases hsm : r.contentLength < SMALL_FILE_THRESHOLD_COURSES
  · exact hsm
  · exfalso
    simp only [coursesAfterHead, if_neg hsm] at hm
    exact hsm (coursesGet_writeChunk_final r fs r.contentLength n hm)

/-- The courses variant streams into the destination path exactly for files
below the small-file threshold (never via the staging path). -/
lemma download_file_courses_writeChunk_final (url : String) (verify : Bool) (r : Remote)
    (fs : Fs) :
    ∀ n, Ev.writeChunk true n ∈ (download_file_courses url verify r fs).events →
      r.contentLength < SMALL_FILE_THRESHOLD_COURSES := by
  intro n hm
  by_cases h1 : url = ""
  · simp [download_file_courses, if_pos h1] at hm
  · by_cases h2 : r.headStatus = 403
    · simp only [download_file_courses, if_neg h1, if_pos h2] at hm
      rcases fs.finalSize.isSome with _ | _ <;> simp_all
    · simp only [download_file_courses, if_neg h1, if_neg h2, List.mem_cons] at hm
      rcases hm with hc | hm2
      · exact absurd hc.symm (by simp)
      · exact coursesAfterHead_writeChunk_final verify r fs n hm2

/-- Claim C1 (amended): in the refactor variant all streaming opens and byte
writes target the staging path, a rename onto the destination happens only on
a successful (size-verified) run, and the destination file can change only
through such a rename or — the exception the code makes — through the error
text written to the destination by the 403 handler.  In the courses variant,
files below the small-file threshold are streamed directly into the
destination path. -/
theorem C1_staging_discipline_amended (url : String) (verify : Bool) (r : Remote) (fs : Fs) :
    (∀ b ap, Ev.openW b ap ∈ (download_file_refactor url verify r fs).events → b = false)
    ∧ (∀ b n, Ev.writeChunk b n ∈ (download_file_refactor url verify r fs).events → b = false)
    ∧ (∀ b, Ev.writeText b ∈ (download_file_refactor url verify r fs).events →
        r.getStatus = 403)
    ∧ (Ev.rename ∈ (download_file_refactor url verify r fs).events →
        (download_file_refactor url verify r fs).ok = true)
    ∧ ((download_file_refactor url verify r fs).fs.finalSize ≠ fs.finalSize →
        Ev.rename ∈ (download_file_refactor url verify r fs).events
        ∨ Ev.writeText true ∈ (download_file_refactor url verify r fs).events)
    ∧ (∀ n, Ev.writeChunk true n ∈ (download_file_courses url verify r fs).events →
        r.contentLength < SMALL_FILE_THRESHOLD_COURSES) := by
  obtain ⟨p1, p2, p3, p4, p5⟩ := download_file_refactor_stagingOnly url verify r fs
  exact ⟨p1, p2, p3, p4, p5, download_file_courses_writeChunk_final url verify r fs⟩

/-- Witness for C1 (amended): a run that promotes a complete staging file
(7 bytes, remote size 7) renamed the staging file and indeed succeeded. -/
theorem C1_witness :
    (download_file_refactor "u" false ⟨true, some 7, 200, 200, "", 0, false⟩
      ⟨none, some 7⟩).ok = true :=
  (C1_staging_discipline_amended "u" false ⟨true, some 7, 200, 200, "", 0, false⟩
    ⟨none, some 7⟩).2.2.2.1 (by decide)

/-- Counterexample for C1 as stated: a fresh refactor download whose GET
answers 403 writes the error text "Cannot fetch file: 403 Forbidden"
(32 bytes) to the DESTINATION path (download_teachable_refactor.py lines
709-711) and returns failure — so the final name IS opened for writing with
no size verification, and a file under the final name can be a failed
transfer's error artifact. -/
theorem C1_counterexample :
    (download_file_refactor "u" false ⟨false, none, 200, 403, "Forbidden", 0, false⟩
        ⟨none, none⟩).events
      = [Ev.getReq 0 403, Ev.writeText true]
    ∧ Ev.writeText true
        ∈ (download_file_refactor "u" false ⟨false, none, 200, 403, "Forbidden", 0, false⟩
            ⟨none, none⟩).events
    ∧ (download_file_refactor "u" false ⟨false, none, 200, 403, "Forbidden", 0, false⟩
        ⟨none, none⟩).fs.finalSize = some 32
    ∧ (download_file_refactor "u" false ⟨false, none, 200, 403, "Forbidden", 0, false⟩
        ⟨none, none⟩).ok = false := by
  refine ⟨by decide, by decide, by decide, by decide⟩

/-! ## C3: idempotent fast-path skip -/

/-- Claim C3 (amended): re-running the transfer against a destination that
already holds a file performs no data transfer and succeeds — in the refactor
variant unconditionally when the manager calls it (verify off: any existing
destination file short-circuits), and with verify on when the destination
size equals the probed remote size; in the courses variant provided the
probed remote size is nonzero (a zero or absent Content-Length makes
task.file_size falsy, bypassing the skip — see the counterexample). -/
theorem C3_idempotent_skip_amended :
    (∀ (url : String) (r : Remote) (fs : Fs) (n : Nat), url ≠ "" → fs.finalSize = some n →
      (process_download_refactor url r fs).ok = true
      ∧ dataBytes (process_download_refactor url r fs).events = 0
      ∧ countGet (process_download_refactor url r fs).events = 0)
    ∧ (∀ (url : String) (r : Remote) (fs : Fs) (n : Nat), url ≠ "" → fs.finalSize = some n →
        n = r.contentLength →
      (download_file_refactor url true r fs).ok = true
      ∧ dataBytes (download_file_refactor url true r fs).events = 0
      ∧ countGet (download_file_refactor url true r fs).events = 0)
    ∧ (∀ (completed failed failures : List Nat) (taskId : Nat) (ts0 : Option Nat)
        (url : String) (r : Remote) (fs : Fs) (n : Nat),
        r.contentLengthHdr = some n → n ≠ 0 → fs.finalSize = some n →
      (process_download_courses completed failed failures taskId ts0 url r fs).ok = true
      ∧ dataBytes
          (process_download_courses completed failed failures taskId ts0 url r fs).events = 0
      ∧ countGet
          (process_download_courses completed failed failures taskId ts0 url r fs).events = 0) := by
  refine ⟨?_, ?_, ?_⟩
  · intro url r fs n hurl hfin
    simp [process_download_refactor, download_file_refactor, hurl, hfin, dataBytes, countGet]
  · intro url r fs n hurl hfin hn
    rcases fs with ⟨fin, stag⟩
    simp only at hfin
    subst hfin
    simp only [download_file_refactor, if_neg hurl, refactorAfterHead, refactorHeadChecks,
      if_pos hn]
    cases stag <;> simp [dataBytes, countGet]
  · intro completed failed failures taskId ts0 url r fs n hcl hn hfin
    simp only [process_download_courses, hcl, hfin]
    have : (decide (n ≠ 0) && decide (n = n)) = true := by simp [hn]
    simp [this, dataBytes, countGet, hn]

/-- Witness for C3 (amended): a destination file of 3 bytes makes the
refactor transfer (as the manager invokes it) succeed with zero bytes
transferred. -/
theorem C3_witness :
    (process_download_refactor "u" ⟨false, none, 200, 200, "", 0, false⟩
        ⟨some 3, none⟩).ok = true
    ∧ dataBytes (process_download_refactor "u" ⟨false, none, 200, 200, "", 0, false⟩
        ⟨some 3, none⟩).events = 0 := by
  have h := C3_idempotent_skip_amended.1 "u" ⟨false, none, 200, 200, "", 0, false⟩
    ⟨some 3, none⟩ 3 (by decide) rfl
  exact ⟨h.1, h.2.1⟩

/-- Counterexample for C3 as stated: in the courses variant, a destination
file of size 0 whose size exactly equals the probed remote size
(Content-Length 0) is NOT skipped — the truthiness test
`if task.file_size and ...` (line 1002) treats the expected size 0 as falsy,
the transfer proceeds, the GET fails with 500, the existing destination file
is even deleted, and the transfer returns failure instead of success. -/
theorem C3_counterexample :
    ((⟨some 0, none⟩ : Fs).finalSize = some 0
    ∧ (⟨false, some 0, 200, 500, "", 0, false⟩ : Remote).contentLength = 0)
    ∧ (process_download_courses [] [] [] 9 none "u" ⟨false, some 0, 200, 500, "", 0, false⟩
        ⟨some 0, none⟩).ok = false
    ∧ (process_download_courses [] [] [] 9 none "u" ⟨false, some 0, 200, 500, "", 0, false⟩
        ⟨some 0, none⟩).fs.finalSize = none
    ∧ 9 ∈ (process_download_courses [] [] [] 9 none "u" ⟨false, some 0, 200, 500, "", 0, false⟩
        ⟨some 0, none⟩).failed := by
  refine ⟨⟨rfl, rfl⟩, by decide, by decide, by decide⟩

/-! ## C4: the resume decision -/

/-- Every branch of the GET phase records the GET request with its range
offset. -/
lemma refactorGet_mem_getReq (sp fsize : Nat) (r : Remote) (fs : Fs) :
    Ev.getReq sp r.getStatus ∈ (refactorGet sp fsize r fs).events := by
  by_cases hge : r.getStatus ≥ 400
  · by_cases h403 : r.getStatus = 403 <;>
      simp [refactorGet, hge, h403]
  · simp [refactorGet, hge]

/-- The GET phase never unlinks a file. -/
lemma refactorGet_no_unlink (sp fsize : Nat) (r : Remote) (fs : Fs) :
    ∀ b, Ev.unlink b ∉ (refactorGet sp fsize r fs).events := by
  intro b
  by_cases hge : r.getStatus ≥ 400
  · by_cases h403 : r.getStatus = 403 <;>
      simp [refactorGet, hge, h403]
  · simp only [refactorGet, if_neg hge, refactorStream]
    split_ifs <;> simp

/-- With no destination file and an existing staging file, the refactor's
download_file is the HEAD followed by the staging-file handling. -/
lemma download_file_refactor_no_final (url : String) (verify : Bool) (r : Remote) (s : Nat)
    (h : url ≠ "") :
    download_file_refactor url verify r ⟨none, some s⟩
      = { refactorStaging r.contentLength r ⟨none, some s⟩ with
          events := Ev.headReq :: (refactorStaging r.contentLength r ⟨none, some s⟩).events } := by
  simp [download_file_refactor, h, refactorAfterHead, refactorHeadChecks]

/-- Claim C4 (amended): with a staging file of size S and no destination
file, the refactor's transfer (i) promotes the staging file with no data
request when S equals the probed remote size, (ii) resumes exactly when
S differs from the remote size, S exceeds the safety margin and the remote
size exceeds the (50 MiB) small-file threshold — truncating the staging file
to S − margin and issuing the ranged request from S − margin, REGARDLESS of
the server's Accept-Ranges capability, which the code computes but never
consults — and (iii) in every other case discards the staging file and
restarts the request from byte 0. -/
theorem C4_resume_decision_amended (url : String) (verify : Bool) (r : Remote) (s : Nat)
    (hurl : url ≠ "") :
    (s = r.contentLength →
      download_file_refactor url verify r ⟨none, some s⟩
        = ⟨true, ⟨some s, none⟩, [Ev.headReq, Ev.rename]⟩)
    ∧ (s ≠ r.contentLength → s > RESUME_SAFETY_MARGIN →
        r.contentLength > SMALL_FILE_THRESHOLD_REFACTOR →
        Ev.truncate false (s - RESUME_SAFETY_MARGIN)
          ∈ (download_file_refactor url verify r ⟨none, some s⟩).events
        ∧ Ev.getReq (s - RESUME_SAFETY_MARGIN) r.getStatus
          ∈ (download_file_refactor url verify r ⟨none, some s⟩).events
        ∧ Ev.unlink false ∉ (download_file_refactor url verify r ⟨none, some s⟩).events)
    ∧ (s ≠ r.contentLength →
        ¬ (s > RESUME_SAFETY_MARGIN ∧ r.contentLength > SMALL_FILE_THRESHOLD_REFACTOR) →
        Ev.unlink false ∈ (download_file_refactor url verify r ⟨none, some s⟩).events
        ∧ Ev.getReq 0 r.getStatus
          ∈ (download_file_refactor url verify r ⟨none, some s⟩).events) := by
  rw [download_file_refactor_no_final url verify r s hurl]
  refine ⟨?_, ?_, ?_⟩
  · intro h1
    simp [refactorStaging, if_pos h1]
  · intro h1 h2 h3
    simp only [refactorStaging, if_neg h1, if_pos (And.intro h2 h3)]
    refine ⟨?_, ?_, ?_⟩
    · simp
    · simp only [List.mem_cons]
      exact Or.inr (Or.inr (refactorGet_mem_getReq (s - RESUME_SAFETY_MARGIN)
        r.contentLength r ⟨none, some (s - RESUME_SAFETY_MARGIN)⟩))
    · simp only [List.mem_cons, not_or]
      refine ⟨by simp, by simp, ?_⟩
      exact refactorGet_no_unlink (s - RESUME_SAFETY_MARGIN) r.contentLength r
        ⟨none, some (s - RESUME_SAFETY_MARGIN)⟩ false
  · intro h1 h2
    simp only [refactorStaging, if_neg h1, if_neg h2]
    refine ⟨by simp, ?_⟩
    simp only [List.mem_cons]
    exact Or.inr (Or.inr (refactorGet_mem_getReq 0 r.contentLength r ⟨none, none⟩))

/-- Witness for C4 (amended): a 3,000,000-byte staging file against a
60,000,000-byte remote file is truncated to 1,951,424 = S − margin and the
ranged request starts there. -/
theorem C4_witness :
    Ev.truncate false 1951424
      ∈ (download_file_refactor "u" false ⟨false, some 60000000, 200, 200, "", 0, false⟩
          ⟨none, some 3000000⟩).events
    ∧ Ev.getReq 1951424 200
      ∈ (download_file_refactor "u" false ⟨false, some 60000000, 200, 200, "", 0, false⟩
          ⟨none, some 3000000⟩).events := by
  have h := (C4_resume_decision_amended "u" false
    ⟨false, some 60000000, 200, 200, "", 0, false⟩ 3000000
    (by decide)).2.1 (by decide) (by decide) (by decide)
  exact ⟨h.1, h.2.1⟩

/-- Counterexample for C4 as stated: the server declares NO resume capability
(no Accept-Ranges header, acceptRanges = false), yet the transfer still
resumes — truncating the staging file and issuing a ranged request from
S − margin instead of discarding the staging file and restarting from byte 0.
The resume condition at refactor line 617 never consults supports_resume. -/
theorem C4_counterexample :
    (⟨false, some 60000000, 200, 200, "", 0, false⟩ : Remote).acceptRanges = false
    ∧ Ev.truncate false 1951424
      ∈ (download_file_refactor "u" false ⟨false, some 60000000, 200, 200, "", 0, false⟩
          ⟨none, some 3000000⟩).events
    ∧ Ev.getReq 1951424 200
      ∈ (download_file_refactor "u" false ⟨false, some 60000000, 200, 200, "", 0, false⟩
          ⟨none, some 3000000⟩).events
    ∧ Ev.unlink false
      ∉ (download_file_refactor "u" false ⟨false, some 60000000, 200, 200, "", 0, false⟩
          ⟨none, some 3000000⟩).events
    ∧ Ev.getReq 0 200
      ∉ (download_file_refactor "u" false ⟨false, some 60000000, 200, 200, "", 0, false⟩
          ⟨none, some 3000000⟩).events := by
  refine ⟨rfl, by decide, by decide, by decide, by decide⟩

/-! ## C6: post-stream size verification -/

/-- Prepending an event that is neither a streamed write nor a rename
preserves the verification discipline. -/
lemma VerifiedStream_cons {run : DLRun} (e : Ev)
    (h2 : ∀ b n, e ≠ Ev.writeChunk b n) (h4 : e ≠ Ev.rename)
    (h : VerifiedStream run) :
    VerifiedStream { run with events := e :: run.events } := by
  rintro ⟨b, n, hm⟩
  rcases List.mem_cons.1 hm with hc | hm2
  · exact absurd hc.symm (h2 b n)
  · obtain ⟨hiff, hstag⟩ := h ⟨b, n, hm2⟩
    refine ⟨?_, hstag⟩
    constructor
    · intro hok
      exact List.mem_cons_of_mem e (hiff.1 hok)
    · intro hr
      rcases List.mem_cons.1 hr with hc2 | hr2
      · exact absurd hc2.symm h4
      · exact hiff.2 hr2

/-- The refactor's streaming phase verifies every stream. -/
lemma refactorStream_verifiedStream (sp fsize : Nat) (r : Remote) (fs : Fs) :
    VerifiedStream (refactorStream sp fsize r fs) := by
  intro hex
  simp only [refactorStream] at hex ⊢
  split_ifs <;> simp_all

/-- The refactor's GET phase verifies every stream. -/
lemma refactorGet_verifiedStream (sp fsize : Nat) (r : Remote) (fs : Fs) :
    VerifiedStream (refactorGet sp fsize r fs) := by
  by_cases hge : r.getStatus ≥ 400
  · by_cases h403 : r.getStatus = 403
    · simp only [refactorGet, if_pos hge, if_pos h403]
      rintro ⟨b, n, hm⟩
      simp at hm
    · simp only [refactorGet, if_pos hge, if_neg h403]
      rintro ⟨b, n, hm⟩
      simp at hm
  · simp only [refactorGet, if_neg hge]
    exact VerifiedStream_cons (Ev.getReq sp r.getStatus) (by simp) (by simp)
      (refactorStream_verifiedStream sp fsize r fs)

/-- The refactor's staging-file handling verifies every stream. -/
lemma refactorStaging_verifiedStream (fsize : Nat) (r : Remote) (fs : Fs) :
    VerifiedStream (refactorStaging fsize r fs) := by
  rcases fs with ⟨fin, stag⟩
  cases stag with
  | none => exact refactorGet_verifiedStream 0 fsize r ⟨fin, none⟩
  | some s =>
    by_cases h1 : s = fsize
    · simp only [refactorStaging, if_pos h1]
      rintro ⟨b, n, hm⟩
      simp at hm
    · by_cases h2 : s > RESUME_SAFETY_MARGIN ∧ fsize > SMALL_FILE_THRESHOLD_REFACTOR
      · simp only [refactorStaging, if_neg h1, if_pos h2]
        exact VerifiedStream_cons (Ev.truncate false (s - RESUME_SAFETY_MARGIN))
          (by simp) (by simp)
          (refactorGet_verifiedStream (s - RESUME_SAFETY_MARGIN) fsize r
            ⟨fin, some (s - RESUME_SAFETY_MARGIN)⟩)
      · simp only [refactorStaging, if_neg h1, if_neg h2]
        exact VerifiedStream_cons (Ev.unlink false) (by simp) (by simp)
          (refactorGet_verifiedStream 0 fsize r ⟨fin, none⟩)

/-- The refactor's HEAD-block checks verify every stream. -/
lemma refactorHeadChecks_verifiedStream (verify : Bool) (r : Remote) (fs : Fs) :
    VerifiedStream (refactorHeadChecks verify r fs) := by
  rcases fs with ⟨fin, stag⟩
  cases fin with
  | none =>
    simp only [refactorHeadChecks]
    exact refactorStaging_verifiedStream r.contentLength r ⟨none, stag⟩
  | some n =>
    by_cases h1 : n = r.contentLength
    · simp only [refactorHeadChecks, if_pos h1]
      rintro ⟨b, m, hm⟩
      cases stag <;> simp_all
    · cases verify with
      | true =>
        simp only [refactorHeadChecks, if_neg h1, if_pos rfl]
        rintro ⟨b, m, hm⟩
        simp at hm
      | false =>
        simp only [refactorHeadChecks, if_neg h1, Bool.false_eq_true, if_false]
        exact refactorStaging_verifiedStream r.contentLength r ⟨some n, stag⟩

/-- The refactor's download_file verifies every stream on every input —
regardless of the file's size. -/
lemma download_file_refactor_verifiedStream (url : String) (verify : Bool) (r : Remote)
    (fs : Fs) : VerifiedStream (download_file_refactor url verify r fs) := by
  by_cases h1 : url = ""
  · simp only [download_file_refactor, if_pos h1]
    rintro ⟨b, n, hm⟩
    simp at hm
  · by_cases h2 : (fs.finalSize.isSome && !verify) = true
    · simp only [download_file_refactor, if_neg h1, if_pos h2]
      rintro ⟨b, n, hm⟩
      simp at hm
    · by_cases h3 : (verify || fs.stagingSize.isSome) = true
      · simp only [download_file_refactor, if_neg h1, h2, h3, if_true, Bool.false_eq_true,
          if_false, refactorAfterHead]
        exact VerifiedStream_cons Ev.headReq (by simp) (by simp)
          (refactorHeadChecks_verifiedStream verify r fs)
      · simp only [download_file_refactor, if_neg h1, h2, h3, Bool.false_eq_true, if_false]
        exact refactorGet_verifiedStream 0 0 r fs

/-- The courses GET verifies its stream when file_size is at least the
small-file threshold. -/
lemma coursesGet_verifiedStream (r : Remote) (fs : Fs) (fsize : Nat)
    (hsz : SMALL_FILE_THRESHOLD_COURSES ≤ fsize) :
    VerifiedStream (coursesGet r fs fsize) := by
  by_cases hst : r.getStatus = 403 ∨ r.getStatus ≥ 400
  · simp only [coursesGet, if_pos hst]
    rintro ⟨b, n, hm⟩
    rcases fs.finalSize.isSome with _ | _ <;> simp_all
  · have hsm : ¬ fsize < SMALL_FILE_THRESHOLD_COURSES := by omega
    simp only [coursesGet, if_neg hst, if_neg hsm]
    by_cases hd : r.delivered ≠ fsize
    · simp only [if_pos hd]
      intro hex
      simp_all
    · simp only [if_neg hd]
      intro hex
      rcases hfin : fs.finalSize.isSome with _ | _ <;> simp_all

/-- The courses download_file verifies its stream for files at least as large
as the small-file threshold (smaller files stream unverified into the
destination — see the counterexample). -/
lemma download_file_courses_verifiedStream (url : String) (verify : Bool) (r : Remote)
    (fs : Fs) (hsz : SMALL_FILE_THRESHOLD_COURSES ≤ r.contentLength) :
    VerifiedStream (download_file_courses url verify r fs) := by
  by_cases h1 : url = ""
  · simp only [download_file_courses, if_pos h1]
    rintro ⟨b, n, hm⟩
    simp at hm
  · by_cases h2 : r.headStatus = 403
    · simp only [download_file_courses, if_neg h1, if_pos h2]
      rintro ⟨b, n, hm⟩
      rcases fs.finalSize.isSome with _ | _ <;> simp_all
    · have hsm : ¬ r.contentLength < SMALL_FILE_THRESHOLD_COURSES := by omega
      simp only [download_file_courses, if_neg h1, if_neg h2, coursesAfterHead, if_neg hsm]
      exact VerifiedStream_cons Ev.headReq (by simp) (by simp)
        (coursesGet_verifiedStream r fs r.contentLength hsz)

/-- Claim C6 (amended): after an uninterrupted stream the refactor variant
always compares the staging file's size with the expected size — a match
renames the staging file onto the destination and succeeds, a mismatch fails
leaving the staging file in place — and every streamed refactor run succeeds
exactly when the rename happened; the courses variant gives this guarantee
only for files at least as large as its small-file threshold. -/
theorem C6_size_verification_amended (sp fsize : Nat) (url : String) (verify : Bool)
    (r : Remote) (fs : Fs) :
    (r.interrupted = false → sp + r.delivered = fsize →
      (refactorStream sp fsize r fs).ok = true
      ∧ Ev.rename ∈ (refactorStream sp fsize r fs).events
      ∧ (refactorStream sp fsize r fs).fs.finalSize = some fsize
      ∧ (refactorStream sp fsize r fs).fs.stagingSize = none)
    ∧ (r.interrupted = false → sp + r.delivered ≠ fsize →
      (refactorStream sp fsize r fs).ok = false
      ∧ Ev.rename ∉ (refactorStream sp fsize r fs).events
      ∧ (refactorStream sp fsize r fs).fs.stagingSize = some (sp + r.delivered)
      ∧ (refactorStream sp fsize r fs).fs.finalSize = fs.finalSize)
    ∧ VerifiedStream (download_file_refactor url verify r fs)
    ∧ (SMALL_FILE_THRESHOLD_COURSES ≤ r.contentLength →
        VerifiedStream (download_file_courses url verify r fs)) := by
  refine ⟨?_, ?_, download_file_refactor_verifiedStream url verify r fs,
    fun hsz => download_file_courses_verifiedStream url verify r fs hsz⟩
  · intro hI heq
    simp [refactorStream, hI, heq]
  · intro hI hne
    simp [refactorStream, hI, hne]

/-- Witness for C6 (amended): a completed 5-byte stream against expected size
5 is verified, renamed onto the destination, and reported successful. -/
theorem C6_witness :
    (refactorStream 0 5 ⟨false, some 5, 200, 200, "", 5, false⟩ ⟨none, none⟩).ok = true
    ∧ Ev.rename ∈ (refactorStream 0 5 ⟨false, some 5, 200, 200, "", 5, false⟩
        ⟨none, none⟩).events := by
  have h := (C6_size_verification_amended 0 5 "u" false
    ⟨false, some 5, 200, 200, "", 5, false⟩ ⟨none, none⟩).1 rfl rfl
  exact ⟨h.1, h.2.1⟩

/-- Counterexample for C6 as stated: in the courses variant a small file
(expected size 1000 < 1 MiB) whose stream delivers only 5 bytes is written
straight to the destination and reported SUCCESSFUL with no size comparison
and no rename — the verification step at courses line 713 runs only when
file_size >= SMALL_FILE_THRESHOLD. -/
theorem C6_counterexample :
    (download_file_courses "u" true ⟨false, some 1000, 200, 200, "", 5, false⟩
        ⟨none, none⟩).ok = true
    ∧ (download_file_courses "u" true ⟨false, some 1000, 200, 200, "", 5, false⟩
        ⟨none, none⟩).fs.finalSize = some 5
    ∧ (5 : Nat) ≠ (⟨false, some 1000, 200, 200, "", 5, false⟩ : Remote).contentLength
    ∧ Ev.rename ∉ (download_file_courses "u" true ⟨false, some 1000, 200, 200, "", 5, false⟩
        ⟨none, none⟩).events := by
  refine ⟨by decide, by decide, by decide, by decide⟩
